/-
  Verification of the BudgetDiet document-analysis pipeline.

  Shallow embedding of:
  - the deterministic post-processing in the `analyzeFinancialText` action
    (period / averageDailySpent computation over the transaction list);
  - the `extractText` action;
  - the Convex repository mutations in `convex/documents.ts`
    (`create`, `deleteDocument`, `updateStatus`) over an explicit database
    state, together with the schema's `analysisResults` / `executionErrors`
    tables;
  - the frontend per-document period recomputation in `App.tsx` and the
    `handleUpload` orchestration flow.

  JavaScript `Date` values are modelled as integer millisecond timestamps;
  an ISO `YYYY-MM-DD` string parses to midnight UTC exactly as
  `new Date("YYYY-MM-DD").getTime()` does, and an unparseable date string
  (JS `NaN`) is modelled as `Option.none`.  Amounts are exact rationals.
-/
import Mathlib

namespace BudgetDiet

/-! ### Calendar arithmetic (model of the ECMAScript UTC Date computations)

Days-from-civil and civil-from-days are the standard Gregorian conversion
algorithms; they agree with `Date.UTC` / `toISOString` for all CE dates. -/

/-- Gregorian leap-year test. -/
def isLeap (y : Int) : Bool :=
  y % 4 = 0 && (y % 100 != 0 || y % 400 = 0)

/-- Number of days in month `m` of year `y` (`m` between 1 and 12). -/
def daysInMonth (y m : Int) : Int :=
  if m = 2 then (if isLeap y then 29 else 28)
  else if m = 4 ∨ m = 6 ∨ m = 9 ∨ m = 11 then 30
  else 31

/-- Days since 1970-01-01 of the civil date `y-m-d` (Gregorian). -/
def daysFromCivil (y m d : Int) : Int :=
  let y' := y - (if m ≤ 2 then 1 else 0)
  let era := Int.fdiv y' 400
  let yoe := y' - era * 400
  let doy := (153 * (m + (if m > 2 then -3 else 9)) + 2) / 5 + d - 1
  let doe := yoe * 365 + yoe / 4 - yoe / 100 + doy
  era * 146097 + doe - 719468

/-- Civil date `(y, m, d)` of the day numbered `z` (days since 1970-01-01). -/
def civilFromDays (z : Int) : Int × Int × Int :=
  let z' := z + 719468
  let era := Int.fdiv z' 146097
  let doe := z' - era * 146097
  let yoe := (doe - doe / 1460 + doe / 36524 - doe / 146096) / 365
  let doy := doe - (365 * yoe + yoe / 4 - yoe / 100)
  let mp := (5 * doy + 2) / 153
  let d := doy - (153 * mp + 2) / 5 + 1
  let m := mp + (if mp < 10 then 3 else -9)
  (yoe + era * 400 + (if m ≤ 2 then 1 else 0), m, d)

/-- Milliseconds per day (`1000 * 60 * 60 * 24` in the source). -/
def msPerDay : Int := 86400000

/-- Numeric value of a decimal digit character, `none` otherwise. -/
def digitVal (c : Char) : Option Int :=
  if '0' ≤ c ∧ c ≤ '9' then some ((c.toNat : Int) - 48) else none

/-- Model of `new Date(s).getTime()` for an ISO `YYYY-MM-DD` string:
midnight UTC in milliseconds, `none` for an unparseable string (JS `NaN`). -/
def parseISODate (s : String) : Option Int :=
  match s.data with
  | [y1, y2, y3, y4, s1, m1, m2, s2, d1, d2] =>
    if s1 = '-' ∧ s2 = '-' then
      match digitVal y1, digitVal y2, digitVal y3, digitVal y4,
            digitVal m1, digitVal m2, digitVal d1, digitVal d2 with
      | some a, some b, some c, some e, some f, some g, some i, some j =>
        let y := 1000 * a + 100 * b + 10 * c + e
        let m := 10 * f + g
        let d := 10 * i + j
        if 1 ≤ m ∧ m ≤ 12 ∧ 1 ≤ d ∧ d ≤ daysInMonth y m
        then some (daysFromCivil y m d * msPerDay)
        else none
      | _, _, _, _, _, _, _, _ => none
    else none
  | _ => none

/-- Two-digit zero padding for months and days. -/
def pad2 (n : Int) : String :=
  if n < 10 then "0" ++ toString n else toString n

/-- Model of `new Date(t).toISOString().split('T')[0]` for CE years:
the calendar date of the UTC day containing millisecond timestamp `t`. -/
def formatISODate (t : Int) : String :=
  let c := civilFromDays (Int.fdiv t msPerDay)
  toString c.1 ++ "-" ++ pad2 c.2.1 ++ "-" ++ pad2 c.2.2

/-! ### The reasoning-engine client's data and post-processing
(`analyzeFinancialText` in the actions file, lines 110-143) -/

/-- One transaction of the engine's structured record. -/
structure Txn where
  date : String
  merchant : String
  amount : ℚ
  category : String
deriving DecidableEq, Repr

/-- The JSON payload parsed from the engine response (`data` in the source). -/
structure AnalysisData where
  totalSpent : ℚ
  transactions : List Txn
  summary : String
  advice : String
deriving DecidableEq, Repr

/-- The action's final result: `finalResult` spreads `data` and adds
`period` and `averageDailySpent`. -/
structure AnalysisOut where
  totalSpent : ℚ
  transactions : List Txn
  summary : String
  advice : String
  period : String
  averageDailySpent : ℚ
deriving DecidableEq, Repr

/-- Failure modes of the `analyzeFinancialText` action.  `emptyResponse` is
the thrown `"GPT returned an empty response."`; `rawJsonParse` is the
uncaught `SyntaxError` escaping from `JSON.parse`; `rawDateRange` is the
uncaught `RangeError` escaping from `toISOString()` on an invalid date;
`modelMalformedJson` is the spec's `MODEL_MALFORMED_JSON` failure code. -/
inductive AnalyzeFault where
  | emptyResponse
  | rawJsonParse
  | rawDateRange
  | modelMalformedJson
deriving DecidableEq, Repr

/-- Model of `Number(x.toFixed(2))`: round to two decimal places. -/
def roundTo2 (q : ℚ) : ℚ :=
  (round (q * 100) : ℤ) / 100

/-- Model of `Math.ceil(a / b)` for integer `a` and positive integer `b`:
the ceiling of the exact quotient.  (`ceilDiv_eq_ceil` below shows this is
the mathematical ceiling `⌈a / b⌉`.) -/
def ceilDiv (a : ℤ) (b : ℕ) : ℤ :=
  -((-a) / (b : ℤ))

/-- Lines 111-134 of the action: compute `period` and `averageDailySpent`
from the transaction list and `totalSpent`.  The defaults are
`averageDailySpent = 0` and the sentinel period `"날짜 정보 없음"`; in the
non-empty branch the date strings are mapped through `new Date(...).getTime()`
and sorted ascending (`.sort((a, b) => a - b)`), the period string is built
from the first and last sorted timestamps, and
`diffDays = Math.ceil(|max - min| / 86400000) + 1` guards the division.
An unparseable date yields JS `NaN`; `toISOString()` on the resulting
invalid `Date` throws, modelled as `Except.error .rawDateRange`. -/
def derivePeriodAvg (transactions : List Txn) (totalSpent : ℚ) :
    Except AnalyzeFault (String × ℚ) :=
  if transactions.length > 0 then
    let times := transactions.map fun t => parseISODate t.date
    if times.all Option.isSome then
      let dates := List.insertionSort (· ≤ ·) times.reduceOption
      let minT := dates.headD 0
      let maxT := dates.getLastD 0
      let period := formatISODate minT ++ " ~ " ++ formatISODate maxT
      let diffTime : Int := |maxT - minT|
      let diffDays : Int := ceilDiv diffTime (1000 * 60 * 60 * 24) + 1
      let avg : ℚ := if diffDays > 0 then roundTo2 (totalSpent / (diffDays : ℚ)) else 0
      Except.ok (period, avg)
    else Except.error AnalyzeFault.rawDateRange
  else Except.ok ("날짜 정보 없음", 0)

/-- The full post-processing step: lines 110-143 of the action, producing
`finalResult = { ...data, period, averageDailySpent }`. -/
def analyzePost (data : AnalysisData) : Except AnalyzeFault AnalysisOut :=
  (derivePeriodAvg data.transactions data.totalSpent).map fun pa =>
    ⟨data.totalSpent, data.transactions, data.summary, data.advice, pa.1, pa.2⟩

/-- The response-handling part of the `analyzeFinancialText` action
(lines 102-143).  The raw engine response `raw` is `none` for a null body;
`jsonParse` abstracts the JavaScript `JSON.parse` builtin (`none` = the body
is not valid JSON, in which case the source's uncaught `SyntaxError`
propagates).  `if (!result) throw` also fires on an empty string. -/
def analyzeFinancialText (jsonParse : String → Option AnalysisData)
    (raw : Option String) : Except AnalyzeFault AnalysisOut :=
  match raw with
  | none => Except.error AnalyzeFault.emptyResponse
  | some s =>
    if s = "" then Except.error AnalyzeFault.emptyResponse
    else
      match jsonParse s with
      | none => Except.error AnalyzeFault.rawJsonParse
      | some data => analyzePost data

/-- The frontend per-document recomputation in `App.tsx` (lines 649-671):
parse the dates, drop the `NaN`s (`filter(!isNaN)`), sort ascending, and
compute the period string and `diffDays` with the same formulas; a document
with no parseable date contributes nothing (`none`). -/
def frontendDocStats (transactions : List Txn) : Option (String × Int) :=
  if transactions.length > 0 then
    let dates :=
      List.insertionSort (· ≤ ·)
        ((transactions.map fun t => parseISODate t.date).reduceOption)
    if dates.length > 0 then
      let minT := dates.headD 0
      let maxT := dates.getLastD 0
      let diffTime : Int := |maxT - minT|
      let diffDays : Int := ceilDiv diffTime (1000 * 60 * 60 * 24) + 1
      some (formatISODate minT ++ " ~ " ++ formatISODate maxT, diffDays)
    else none
  else none

/-! ### The document repository (`convex/documents.ts` and the schema)

Database state is explicit.  Convex document ids are modelled as naturals;
a blob in Convex `_storage` is a byte list keyed by its storage id.
Mutations return `Except error α × DB`: `Except.error` models a thrown
error (the transaction aborts, so the returned state equals the input). -/

/-- The five-state document lifecycle of the schema. -/
inductive Status where
  | pending
  | extracting
  | analyzing
  | completed
  | failed
deriving DecidableEq, Repr

/-- The pipeline stage recorded on an `executionErrors` row. -/
inductive Step where
  | extraction
  | analysis
deriving DecidableEq, Repr

/-- A row of the `documents` table. -/
structure Doc where
  id : Nat
  title : String
  storageId : Nat
  ownerId : Nat
  status : Status
deriving DecidableEq, Repr

/-- A row of the `analysisResults` table (keyed by `documentId`). -/
structure AnalysisRow where
  documentId : Nat
  result : AnalysisOut
deriving DecidableEq, Repr

/-- A row of the `executionErrors` table. -/
structure ErrorRow where
  documentId : Nat
  step : Step
  code : String
  message : String
  timestamp : Int
deriving DecidableEq, Repr

/-- The whole persistent state: blob store plus the three schema tables.
`nextId` supplies the fresh id handed out by `db.insert`. -/
structure DB where
  storage : List (Nat × List Nat)
  documents : List Doc
  analysisResults : List AnalysisRow
  executionErrors : List ErrorRow
  nextId : Nat
deriving DecidableEq, Repr

/-- Errors thrown by the repository mutations. -/
inductive RepoError where
  | notFound
  | notAuthorized
deriving DecidableEq, Repr

/-- Model of `ctx.db.get(documentId)`. -/
def findDoc (db : DB) (documentId : Nat) : Option Doc :=
  db.documents.find? fun d => d.id = documentId

/-- The `create` mutation: inserts a `documents` row with `status: "pending"`
and returns the new document id. -/
def createDoc (db : DB) (title : String) (storageId userId : Nat) : Nat × DB :=
  (db.nextId,
   { db with
      documents := db.documents ++ [⟨db.nextId, title, storageId, userId, Status.pending⟩],
      nextId := db.nextId + 1 })

/-- The `deleteDocument` mutation: fetch the document, throw `"Document not
found"` if absent, throw `"Not authorized to delete this document"` when the
caller is not the owner, otherwise delete the blob from storage and then the
document row. -/
def deleteDocument (db : DB) (documentId userId : Nat) :
    Except RepoError Unit × DB :=
  match findDoc db documentId with
  | none => (Except.error RepoError.notFound, db)
  | some doc =>
    if doc.ownerId ≠ userId then
      (Except.error RepoError.notAuthorized, db)
    else
      (Except.ok (),
       { db with
          storage := db.storage.filter fun b => b.1 ≠ doc.storageId,
          documents := db.documents.filter fun d => d.id ≠ documentId })

/-- The `updateStatus` mutation: `ctx.db.patch(documentId, { status })`.
No check of the current status is performed; `db.patch` throws only when the
document id does not exist. -/
def updateStatus (db : DB) (documentId : Nat) (status : Status) :
    Except RepoError Unit × DB :=
  match findDoc db documentId with
  | none => (Except.error RepoError.notFound, db)
  | some _ =>
    (Except.ok (),
     { db with
        documents := db.documents.map fun d =>
          if d.id = documentId then { d with status := status } else d })

/-- Modelled from the spec: the `saveAnalysisResult` mutation is invoked by
the frontend (`api.documents.saveAnalysisResult`, `App.tsx` line 46) but its
implementation is not among the source files.  Per the spec the repository
"exposes 'insert AnalysisResult and set Document.status=completed' as one
atomic logical operation"; a Convex mutation is one transaction, so the row
insert and the status patch land together. -/
def saveAnalysisResult (db : DB) (documentId : Nat) (out : AnalysisOut) :
    Except RepoError Unit × DB :=
  match findDoc db documentId with
  | none => (Except.error RepoError.notFound, db)
  | some _ =>
    (Except.ok (),
     { db with
        analysisResults := db.analysisResults ++ [⟨documentId, out⟩],
        documents := db.documents.map fun d =>
          if d.id = documentId then { d with status := Status.completed } else d })

/-! ### The `extractText` action (`convex/actions.ts` lines 11-36)

`ctx.storage.getUrl` resolves iff the blob exists; `pdf-parse` is
abstracted as a function from the blob's bytes to `Option` text.  The
handler touches `ctx.storage` only, never `ctx.db`; the state is threaded
through to make that observable. -/

/-- Failure modes of `extractText`: the thrown `"File not found. storageId:
..."` and the thrown `"Failed to extract text from PDF."`. -/
inductive ExtractFault where
  | blobNotFound
  | extractionFailed
deriving DecidableEq, Repr

/-- The `extractText` action handler. -/
def extractText (pdfParse : List Nat → Option String) (db : DB)
    (storageId : Nat) : Except ExtractFault String × DB :=
  match db.storage.find? (fun b => b.1 = storageId) with
  | none => (Except.error ExtractFault.blobNotFound, db)
  | some blob =>
    match pdfParse blob.2 with
    | none => (Except.error ExtractFault.extractionFailed, db)
    | some text => (Except.ok text, db)

/-! ### The frontend orchestration (`handleUpload`, `App.tsx` lines 142-273)

Steps A/B (upload-URL issuance and the binary POST) talk to the external
blob store; the committed blob is passed in as `storageId`.  Step C runs
`create`; steps D/E are the two external calls, whose outcomes are
parameters; step F runs `saveAnalysisResult`.  Every `catch` block only
logs and sets UI state — it performs no database write — so a failure
after step C leaves exactly the state left by `create`. -/

def handleUpload (db : DB) (title : String) (storageId userId : Nat)
    (extractOutcome : Except ExtractFault String)
    (analyzeOutcome : String → Except AnalyzeFault AnalysisOut) :
    DB × Bool :=
  let step3 := createDoc db title storageId userId
  let docId := step3.1
  let db1 := step3.2
  match extractOutcome with
  | Except.error _ => (db1, false)
  | Except.ok text =>
    match analyzeOutcome text with
    | Except.error _ => (db1, false)
    | Except.ok out =>
      match saveAnalysisResult db1 docId out with
      | (Except.error _, db2) => (db2, false)
      | (Except.ok _, db2) => (db2, true)

/-! ### Spec-side predicates (§3, §8 of the spec) -/

/-- Number of `analysisResults` rows for a document. -/
def arCount (db : DB) (documentId : Nat) : Nat :=
  (db.analysisResults.filter fun r => r.documentId = documentId).length

/-- Number of `executionErrors` rows for a document. -/
def errCount (db : DB) (documentId : Nat) : Nat :=
  (db.executionErrors.filter fun r => r.documentId = documentId).length

/-- Spec §8: `status==completed ⇔ exactly one AnalysisResult exists`. -/
def completedInv (db : DB) : Prop :=
  ∀ d ∈ db.documents, (d.status = Status.completed ↔ arCount db d.id = 1)

instance (db : DB) : Decidable (completedInv db) := by
  unfold completedInv; infer_instance

/-- Spec §8: `status==failed ⇒ ≥1 ExecutionError exists` for the document. -/
def failedInv (db : DB) : Prop :=
  ∀ d ∈ db.documents, d.status = Status.failed → 1 ≤ errCount db d.id

instance (db : DB) : Decidable (failedInv db) := by
  unfold failedInv; infer_instance

/-- The transition order of §3/§4.1: monotonic along
pending→extracting→analyzing→completed with a branch to failed from
extracting or analyzing. -/
def allowedStep : Status → Status → Prop
  | Status.pending, Status.extracting => True
  | Status.extracting, Status.analyzing => True
  | Status.extracting, Status.failed => True
  | Status.analyzing, Status.completed => True
  | Status.analyzing, Status.failed => True
  | _, _ => False

instance (s t : Status) : Decidable (allowedStep s t) := by
  cases s <;> cases t <;> unfold allowedStep <;> infer_instance

/-- The timestamps of a transaction list's dates that parse, in list order
(the source's `dates` array before sorting, minus the `NaN`s). -/
def parsedTimes (transactions : List Txn) : List Int :=
  (transactions.map fun t => parseISODate t.date).reduceOption

/-- The sorted timestamp array (`dates` after `.sort((a, b) => a - b)`). -/
def sortedTimes (transactions : List Txn) : List Int :=
  List.insertionSort (· ≤ ·) (parsedTimes transactions)

/-- The period string the post-processing builds from the first and last
sorted timestamps. -/
def periodOf (transactions : List Txn) : String :=
  formatISODate ((sortedTimes transactions).headD 0) ++ " ~ " ++
    formatISODate ((sortedTimes transactions).getLastD 0)

/-- The `diffDays` value of the post-processing:
`Math.ceil(|max - min| / 86400000) + 1`. -/
def dayCountOf (transactions : List Txn) : Int :=
  ceilDiv |(sortedTimes transactions).getLastD 0 - (sortedTimes transactions).headD 0|
    (1000 * 60 * 60 * 24) + 1

/-! ### Concrete instances used by the witnesses and counterexamples -/

/-- The spec's worked example: dates 2025-01-10, 2025-01-05, 2025-01-12. -/
def exTxns : List Txn :=
  [⟨"2025-01-10", "KFC", 100, "Food"⟩,
   ⟨"2025-01-05", "Tesco", 120, "Food"⟩,
   ⟨"2025-01-12", "Uber", 80, "Transport"⟩]

/-- The spec's worked example as an engine payload with `totalSpent = 300`. -/
def exData : AnalysisData :=
  ⟨300, exTxns, "Quite the spender.", "Cook at home."⟩

/-- A transaction whose date string does not parse (JS `NaN` timestamp). -/
def badTxn : Txn :=
  ⟨"hello", "Mystery", 5, "Other"⟩

/-- The post-processing output on the spec's example, with the average in
its rounded-division form. -/
def exOutR : AnalysisOut :=
  ⟨300, exTxns, "Quite the spender.", "Cook at home.",
   "2025-01-05 ~ 2025-01-12", roundTo2 (300 / ((8 : ℤ) : ℚ))⟩

/-- An analysis output used to exercise `saveAnalysisResult`. -/
def exOut : AnalysisOut :=
  ⟨300, exTxns, "Quite the spender.", "Cook at home.",
   "2025-01-05 ~ 2025-01-12", 75 / 2⟩

/-- A one-document database: document 0 (owner 7, blob 3) is pending, with
no analysis results and no execution errors. -/
def db0 : DB :=
  ⟨[(3, [37, 80])], [⟨0, "jan.pdf", 3, 7, Status.pending⟩], [], [], 1⟩

/-- State `db0` with document 0 completed (no analysis result row). -/
def dbCompleted : DB :=
  ⟨[(3, [37, 80])], [⟨0, "jan.pdf", 3, 7, Status.completed⟩], [], [], 1⟩

/-- State `db0` with document 0 failed (no execution error row). -/
def dbFailed : DB :=
  ⟨[(3, [37, 80])], [⟨0, "jan.pdf", 3, 7, Status.failed⟩], [], [], 1⟩

/-! ### Helper lemmas -/

/-- The function `ceilDiv` computes the mathematical ceiling of the exact
quotient. -/
theorem ceilDiv_eq_ceil (a : ℤ) (b : ℕ) :
    ceilDiv a b = ⌈(a : ℚ) / (b : ℚ)⌉ := by
  have h : ((a : ℚ) / (b : ℚ)) = -((((-a : ℤ)) : ℚ) / (b : ℚ)) := by
    push_cast
    ring
  rw [ceilDiv, h, Int.ceil_neg, Rat.floor_intCast_div_natCast]

/-- The head of a `≤`-sorted integer list is a lower bound. -/
theorem headD_le_of_sorted {l : List ℤ} (hs : l.Sorted (· ≤ ·)) {x : ℤ}
    (hx : x ∈ l) : l.headD 0 ≤ x := by
  cases l with
  | nil => cases hx
  | cons a t =>
    simp only [List.headD_cons]
    rcases List.mem_cons.mp hx with rfl | h
    · exact le_refl _
    · exact List.rel_of_sorted_cons hs _ h

/-- The last element of a `≤`-sorted integer list is an upper bound. -/
theorem le_getLastD_of_sorted {l : List ℤ} (hs : l.Sorted (· ≤ ·)) :
    ∀ d : ℤ, ∀ x ∈ l, x ≤ l.getLastD d := by
  induction l with
  | nil => intro d x hx; cases hx
  | cons a t ih =>
    intro d x hx
    rw [List.getLastD_cons]
    rcases List.mem_cons.mp hx with rfl | h
    · cases t with
      | nil => simp
      | cons b t' =>
        have hab : x ≤ b := List.rel_of_sorted_cons hs _ (List.mem_cons_self _ _)
        exact le_trans hab (ih hs.of_cons x b (List.mem_cons_self b t'))
    · exact ih hs.of_cons a x h

theorem headD_mem_of_ne_nil {l : List ℤ} (h : l ≠ []) : l.headD 0 ∈ l := by
  cases l with
  | nil => exact absurd rfl h
  | cons a t => simp

theorem getLastD_mem_of_ne_nil {l : List ℤ} (h : l ≠ []) :
    ∀ d : ℤ, l.getLastD d ∈ l := by
  induction l with
  | nil => exact absurd rfl h
  | cons a t ih =>
    intro d
    rw [List.getLastD_cons]
    cases t with
    | nil => simp
    | cons b t' => exact List.mem_cons_of_mem _ (ih (by simp) a)

theorem parsedTimes_ne_nil {transactions : List Txn}
    (hne : transactions ≠ [])
    (hp : ((transactions.map fun t => parseISODate t.date).all Option.isSome) = true) :
    parsedTimes transactions ≠ [] := by
  cases transactions with
  | nil => exact absurd rfl hne
  | cons t0 ts =>
    have h0 : (parseISODate t0.date).isSome := by
      exact List.all_eq_true.mp hp (parseISODate t0.date) (by simp)
    intro hnil
    rcases Option.isSome_iff_exists.mp h0 with ⟨v, hv⟩
    have hmem : v ∈ parsedTimes (t0 :: ts) :=
      List.reduceOption_mem_iff.mpr (by simp [hv])
    rw [hnil] at hmem
    cases hmem

theorem sortedTimes_ne_nil {transactions : List Txn}
    (hne : transactions ≠ [])
    (hp : ((transactions.map fun t => parseISODate t.date).all Option.isSome) = true) :
    sortedTimes transactions ≠ [] := by
  intro h
  have hperm : (sortedTimes transactions).Perm (parsedTimes transactions) :=
    List.perm_insertionSort _ _
  have hlen0 : (parsedTimes transactions).length = 0 := by
    rw [← hperm.length_eq, h]
    rfl
  exact parsedTimes_ne_nil hne hp (List.length_eq_zero.mp hlen0)

/-- The computed `diffDays` is at least 1: the ceiling of a non-negative quantity plus
one. -/
theorem one_le_dayCountOf (transactions : List Txn) :
    1 ≤ dayCountOf transactions := by
  rw [dayCountOf, ceilDiv_eq_ceil]
  have h0 : (0 : ℚ) ≤
      ((|(sortedTimes transactions).getLastD 0 - (sortedTimes transactions).headD 0| : ℤ) : ℚ) /
        (((1000 * 60 * 60 * 24 : ℕ) : ℚ)) := by
    positivity
  have := Int.ceil_nonneg h0
  omega

/-- In the all-dates-parse case the post-processing succeeds and returns
exactly the period string and rounded average built from the sorted
timestamps. -/
theorem derivePeriodAvg_ok (transactions : List Txn) (totalSpent : ℚ)
    (hne : transactions ≠ [])
    (hp : ((transactions.map fun t => parseISODate t.date).all Option.isSome) = true) :
    derivePeriodAvg transactions totalSpent =
      Except.ok (periodOf transactions,
        roundTo2 (totalSpent / ((dayCountOf transactions : ℤ) : ℚ))) := by
  have hlen : transactions.length > 0 := List.length_pos.mpr hne
  have hfold :
      List.insertionSort (· ≤ ·) ((transactions.map fun t => parseISODate t.date).reduceOption) =
        sortedTimes transactions := rfl
  have hpos :
      ceilDiv |(sortedTimes transactions).getLastD 0 - (sortedTimes transactions).headD 0|
        (1000 * 60 * 60 * 24) + 1 > 0 := by
    have := one_le_dayCountOf transactions
    rw [dayCountOf] at this
    omega
  simp only [derivePeriodAvg]
  rw [if_pos hlen, if_pos hp, hfold, if_pos hpos]
  rfl

/-- In the all-dates-parse case the frontend recomputation produces the
same period string together with `diffDays`. -/
theorem frontendDocStats_ok (transactions : List Txn)
    (hne : transactions ≠ [])
    (hp : ((transactions.map fun t => parseISODate t.date).all Option.isSome) = true) :
    frontendDocStats transactions =
      some (periodOf transactions, dayCountOf transactions) := by
  have hlen : transactions.length > 0 := List.length_pos.mpr hne
  have hsne : sortedTimes transactions ≠ [] := sortedTimes_ne_nil hne hp
  have hslen : (sortedTimes transactions).length > 0 := List.length_pos.mpr hsne
  have hfold :
      List.insertionSort (· ≤ ·) ((transactions.map fun t => parseISODate t.date).reduceOption) =
        sortedTimes transactions := rfl
  simp only [frontendDocStats]
  rw [if_pos hlen, hfold, if_pos hslen]
  rfl

/-- Evaluation of the rounded average at the spec's example. -/
theorem roundTo2_example : roundTo2 (300 / ((8 : ℤ) : ℚ)) = 75 / 2 := by
  rw [roundTo2]
  rw [show (300 : ℚ) / ((8 : ℤ) : ℚ) * 100 = ((3750 : ℤ) : ℚ) by norm_num]
  rw [round_intCast]
  norm_num

/-! ### The claims -/

/-- C2: for every analysis result with a non-empty transaction list, the
post-processing sorts the parsed dates ascending and returns
`period = "<min-date> ~ <max-date>"` (ISO date strings),
`dayCount = ceil(|max - min| ms / 86400000) + 1`, and
`averageDailySpent = round(totalSpent / dayCount, 2 decimals)`; in
particular, for dates [2025-01-10, 2025-01-05, 2025-01-12] with
`totalSpent = 300` it yields `period = "2025-01-05 ~ 2025-01-12"`,
`dayCount = 8` and `averageDailySpent = 37.50`. -/
theorem c2_period_dayCount_average :
    (∀ (transactions : List Txn) (totalSpent : ℚ),
      transactions ≠ [] →
      ((transactions.map fun t => parseISODate t.date).all Option.isSome) = true →
      ∃ mn mx : ℤ,
        mn ∈ parsedTimes transactions ∧ mx ∈ parsedTimes transactions ∧
        (∀ t ∈ parsedTimes transactions, mn ≤ t ∧ t ≤ mx) ∧
        derivePeriodAvg transactions totalSpent =
          Except.ok (formatISODate mn ++ " ~ " ++ formatISODate mx,
            roundTo2 (totalSpent /
              ((ceilDiv |mx - mn| (1000 * 60 * 60 * 24) + 1 : ℤ) : ℚ)))) ∧
    derivePeriodAvg exTxns 300 = Except.ok ("2025-01-05 ~ 2025-01-12", 75 / 2) ∧
    dayCountOf exTxns = 8 := by
  refine ⟨?_, ?_, by decide⟩
  · intro transactions totalSpent hne hp
    have hsort : (sortedTimes transactions).Sorted (· ≤ ·) :=
      List.sorted_insertionSort _ _
    have hperm : (sortedTimes transactions).Perm (parsedTimes transactions) :=
      List.perm_insertionSort _ _
    have hsne : sortedTimes transactions ≠ [] := sortedTimes_ne_nil hne hp
    refine ⟨(sortedTimes transactions).headD 0, (sortedTimes transactions).getLastD 0,
      ?_, ?_, ?_, ?_⟩
    · exact hperm.mem_iff.mp (headD_mem_of_ne_nil hsne)
    · exact hperm.mem_iff.mp (getLastD_mem_of_ne_nil hsne 0)
    · intro t ht
      have hts : t ∈ sortedTimes transactions := hperm.mem_iff.mpr ht
      exact ⟨headD_le_of_sorted hsort hts, le_getLastD_of_sorted hsort 0 t hts⟩
    · exact derivePeriodAvg_ok transactions totalSpent hne hp
  · have h1 : derivePeriodAvg exTxns 300 =
        Except.ok ("2025-01-05 ~ 2025-01-12", roundTo2 (300 / ((8 : ℤ) : ℚ))) := rfl
    rw [h1, roundTo2_example]

/-- Witness for C2: the general statement applied to the spec's example
list with `totalSpent = 300`. -/
theorem c2_witness :
    ∃ mn mx : ℤ,
      mn ∈ parsedTimes exTxns ∧ mx ∈ parsedTimes exTxns ∧
      (∀ t ∈ parsedTimes exTxns, mn ≤ t ∧ t ≤ mx) ∧
      derivePeriodAvg exTxns 300 =
        Except.ok (formatISODate mn ++ " ~ " ++ formatISODate mx,
          roundTo2 ((300 : ℚ) /
            ((ceilDiv |mx - mn| (1000 * 60 * 60 * 24) + 1 : ℤ) : ℚ))) :=
  c2_period_dayCount_average.1 exTxns 300 (by decide) (by decide)

/-- C3 counterexample: on a non-empty body rejected by the JSON parser the
action yields the uncaught raw parse fault (`JSON.parse` has no
try/catch), not the `MODEL_MALFORMED_JSON` failure. -/
theorem c3_counterexample :
    analyzeFinancialText (fun _ => (none : Option AnalysisData)) (some "not json") =
      Except.error AnalyzeFault.rawJsonParse ∧
    analyzeFinancialText (fun _ => (none : Option AnalysisData)) (some "not json") ≠
      Except.error AnalyzeFault.modelMalformedJson := by
  refine ⟨rfl, ?_⟩
  intro h
  rw [show analyzeFinancialText (fun _ => (none : Option AnalysisData)) (some "not json") =
      Except.error AnalyzeFault.rawJsonParse from rfl] at h
  simp at h

/-- C3 (amended): a null or empty body fails with the empty-response error;
a non-empty body that is not valid JSON propagates the raw `JSON.parse`
fault to the caller. -/
theorem c3_empty_and_raw (jsonParse : String → Option AnalysisData) :
    analyzeFinancialText jsonParse none = Except.error AnalyzeFault.emptyResponse ∧
    analyzeFinancialText jsonParse (some "") = Except.error AnalyzeFault.emptyResponse ∧
    ∀ s : String, s ≠ "" → jsonParse s = none →
      analyzeFinancialText jsonParse (some s) = Except.error AnalyzeFault.rawJsonParse := by
  refine ⟨rfl, rfl, ?_⟩
  intro s hs hp
  simp only [analyzeFinancialText]
  rw [if_neg hs, hp]

/-- Witness for C3 (amended), at the constant-`none` parser and the body
`"x"`. -/
theorem c3_witness :
    analyzeFinancialText (fun _ => (none : Option AnalysisData)) none =
      Except.error AnalyzeFault.emptyResponse ∧
    analyzeFinancialText (fun _ => (none : Option AnalysisData)) (some "") =
      Except.error AnalyzeFault.emptyResponse ∧
    analyzeFinancialText (fun _ => (none : Option AnalysisData)) (some "x") =
      Except.error AnalyzeFault.rawJsonParse :=
  ⟨(c3_empty_and_raw _).1, (c3_empty_and_raw _).2.1,
   (c3_empty_and_raw _).2.2 "x" (by decide) rfl⟩

/-- C7: an empty transaction list yields `averageDailySpent = 0` and the
sentinel "no date information" period; and the computed `dayCount` never
resolves to 0 on the branch that computes it, so the proviso is vacuous. -/
theorem c7_empty_sentinel :
    (∀ data : AnalysisData, data.transactions = [] →
      analyzePost data =
        Except.ok ⟨data.totalSpent, data.transactions, data.summary, data.advice,
          "날짜 정보 없음", 0⟩) ∧
    ∀ transactions : List Txn, transactions ≠ [] →
      ((transactions.map fun t => parseISODate t.date).all Option.isSome) = true →
      dayCountOf transactions ≠ 0 := by
  constructor
  · intro data h
    simp only [analyzePost, h]
    rfl
  · intro transactions _ _
    have := one_le_dayCountOf transactions
    omega

/-- Witness for C7: the empty payload with `totalSpent = 0`, and the spec's
example list for the dayCount part. -/
theorem c7_witness :
    analyzePost ⟨0, [], "s", "a"⟩ =
      Except.ok ⟨0, [], "s", "a", "날짜 정보 없음", 0⟩ ∧
    dayCountOf exTxns ≠ 0 :=
  ⟨c7_empty_sentinel.1 ⟨0, [], "s", "a"⟩ rfl,
   c7_empty_sentinel.2 exTxns (by decide) (by decide)⟩

/-- C9 (amended): recomputing the derived fields from a stored result is
deterministic and idempotent (re-running the post-processing on the stored
transaction list and totalSpent reproduces the stored period and
averageDailySpent), and on every transaction list whose dates all parse the
frontend per-document recomputation agrees with the backend
post-processing; agreement on lists with unparseable dates fails (see the
counterexample). -/
theorem c9_recompute_agree :
    (∀ (data : AnalysisData) (out : AnalysisOut),
      analyzePost data = Except.ok out →
      analyzePost ⟨out.totalSpent, out.transactions, out.summary, out.advice⟩ =
        Except.ok out) ∧
    ∀ (transactions : List Txn) (totalSpent : ℚ),
      transactions ≠ [] →
      ((transactions.map fun t => parseISODate t.date).all Option.isSome) = true →
      frontendDocStats transactions =
        some (periodOf transactions, dayCountOf transactions) ∧
      derivePeriodAvg transactions totalSpent =
        Except.ok (periodOf transactions,
          roundTo2 (totalSpent / ((dayCountOf transactions : ℤ) : ℚ))) := by
  constructor
  · intro data out h
    simp only [analyzePost] at h ⊢
    cases hd : derivePeriodAvg data.transactions data.totalSpent with
    | error e => rw [hd] at h; simp [Except.map] at h
    | ok pa =>
      rw [hd] at h
      simp only [Except.map] at h
      injection h with h'
      subst h'
      simp only []
      rw [hd]
      rfl
  · intro transactions totalSpent hne hp
    exact ⟨frontendDocStats_ok transactions hne hp,
      derivePeriodAvg_ok transactions totalSpent hne hp⟩

/-- Witness for C9 (amended): idempotence at the spec's example payload and
agreement at the example list. -/
theorem c9_witness :
    analyzePost ⟨exOutR.totalSpent, exOutR.transactions, exOutR.summary, exOutR.advice⟩ =
      Except.ok exOutR ∧
    frontendDocStats exTxns = some (periodOf exTxns, dayCountOf exTxns) ∧
    derivePeriodAvg exTxns 300 =
      Except.ok (periodOf exTxns, roundTo2 ((300 : ℚ) / ((dayCountOf exTxns : ℤ) : ℚ))) :=
  ⟨c9_recompute_agree.1 exData exOutR rfl,
   (c9_recompute_agree.2 exTxns 300 (by decide) (by decide)).1,
   (c9_recompute_agree.2 exTxns 300 (by decide) (by decide)).2⟩

/-- C9 counterexample: on a transaction list with an unparseable date the
backend post-processing faults (the `toISOString` RangeError on an invalid
`Date`) while the frontend recomputation filters the date out and computes
nothing, so the claimed backend/frontend agreement on every transaction
list fails. -/
theorem c9_counterexample :
    derivePeriodAvg [badTxn] 100 = Except.error AnalyzeFault.rawDateRange ∧
    (¬ ∃ out, analyzePost ⟨100, [badTxn], "s", "a"⟩ = Except.ok out) ∧
    frontendDocStats [badTxn] = none := by
  refine ⟨rfl, ?_, rfl⟩
  rintro ⟨out, h⟩
  rw [show analyzePost ⟨100, [badTxn], "s", "a"⟩ =
      Except.error AnalyzeFault.rawDateRange from rfl] at h
  simp at h

/-- C10: for every non-empty transaction list (whose dates parse — the only
case in which `diffDays` is computed rather than the run aborting),
`diffDays ≥ 1`, hence the `diffDays > 0` guard holds, the branch that would
leave `averageDailySpent = 0` for a non-empty list is not taken, and the
division `totalSpent / diffDays` is never a division by zero. -/
theorem c10_diffDays_positive :
    ∀ (transactions : List Txn) (totalSpent : ℚ),
      transactions ≠ [] →
      ((transactions.map fun t => parseISODate t.date).all Option.isSome) = true →
      1 ≤ dayCountOf transactions ∧
      ((dayCountOf transactions : ℤ) : ℚ) ≠ 0 ∧
      derivePeriodAvg transactions totalSpent =
        Except.ok (periodOf transactions,
          roundTo2 (totalSpent / ((dayCountOf transactions : ℤ) : ℚ))) := by
  intro transactions totalSpent hne hp
  have h1 := one_le_dayCountOf transactions
  refine ⟨h1, ?_, derivePeriodAvg_ok transactions totalSpent hne hp⟩
  have hz : (dayCountOf transactions : ℤ) ≠ 0 := by omega
  exact_mod_cast Int.cast_ne_zero.mpr hz

/-- Witness for C10 at the spec's example list. -/
theorem c10_witness :
    1 ≤ dayCountOf exTxns ∧
    ((dayCountOf exTxns : ℤ) : ℚ) ≠ 0 ∧
    derivePeriodAvg exTxns 300 =
      Except.ok (periodOf exTxns,
        roundTo2 ((300 : ℚ) / ((dayCountOf exTxns : ℤ) : ℚ))) :=
  c10_diffDays_positive exTxns 300 (by decide) (by decide)

/-- C1 counterexample: the exported `updateStatus` mutation can set
`status = "completed"` on a document with no `analysisResults` row, so a
reader can observe `completed` without a corresponding AnalysisResult and
the biconditional is not an invariant of the exposed operations. -/
theorem c1_counterexample :
    completedInv db0 ∧
    updateStatus db0 0 Status.completed = (Except.ok (), dbCompleted) ∧
    ¬ completedInv dbCompleted := by
  refine ⟨by decide, rfl, by decide⟩

/-- Appending one `analysisResults` row adds one to the filtered count for
its document id and nothing for any other. -/
theorem filter_append_row_length (rows : List AnalysisRow) (j i : Nat)
    (out : AnalysisOut) :
    ((rows ++ [(⟨j, out⟩ : AnalysisRow)]).filter fun r => r.documentId = i).length =
      (rows.filter fun r => r.documentId = i).length + (if j = i then 1 else 0) := by
  rw [List.filter_append, List.length_append]
  congr 1
  by_cases hj : j = i <;> simp [List.filter, hj]

/-- C1 (amended): the `saveAnalysisResult` operation — modelled from the
spec — does insert the AnalysisResult row and set `status = "completed"` in
one atomic step, preserving the `completed ⇔ one AnalysisResult`
invariant when the document had no result row yet; the invariant is an
effect of that single operation only, not of all exposed operations. -/
theorem c1_atomic_save (db : DB) (documentId : Nat) (out : AnalysisOut) (doc : Doc)
    (hdoc : findDoc db documentId = some doc)
    (hinv : completedInv db) (h0 : arCount db documentId = 0) :
    ∃ db', saveAnalysisResult db documentId out = (Except.ok (), db') ∧
      completedInv db' ∧
      arCount db' documentId = 1 ∧
      ∀ d ∈ db'.documents, d.id = documentId → d.status = Status.completed := by
  refine ⟨(saveAnalysisResult db documentId out).2, ?_, ?_, ?_, ?_⟩
  · simp only [saveAnalysisResult, hdoc]
  · have hAR : (saveAnalysisResult db documentId out).2.analysisResults =
        db.analysisResults ++ [⟨documentId, out⟩] := by
      simp only [saveAnalysisResult, hdoc]
    have hDocs : (saveAnalysisResult db documentId out).2.documents =
        db.documents.map (fun d =>
          if d.id = documentId then { d with status := Status.completed } else d) := by
      simp only [saveAnalysisResult, hdoc]
    have harc : ∀ i, arCount (saveAnalysisResult db documentId out).2 i =
        arCount db i + (if documentId = i then 1 else 0) := by
      intro i
      simp only [arCount, hAR]
      exact filter_append_row_length db.analysisResults documentId i out
    intro d hd
    rw [hDocs] at hd
    rcases List.mem_map.mp hd with ⟨d0, hd0, rfl⟩
    by_cases hid : d0.id = documentId
    · have he : (if d0.id = documentId
          then ({ d0 with status := Status.completed } : Doc) else d0) =
          { d0 with status := Status.completed } := if_pos hid
      rw [he]
      constructor
      · intro _
        rw [show ({ d0 with status := Status.completed } : Doc).id = d0.id from rfl,
          hid, harc documentId, h0, if_pos rfl]
      · intro _
        rfl
    · have he : (if d0.id = documentId
          then ({ d0 with status := Status.completed } : Doc) else d0) = d0 := if_neg hid
      rw [he, show ({ d0 with status := Status.completed } : Doc).id = d0.id from rfl]
      rw [harc d0.id, if_neg (fun h => hid h.symm), Nat.add_zero]
      exact hinv d0 hd0
  · have hAR : (saveAnalysisResult db documentId out).2.analysisResults =
        db.analysisResults ++ [⟨documentId, out⟩] := by
      simp only [saveAnalysisResult, hdoc]
    have harc : ∀ i, arCount (saveAnalysisResult db documentId out).2 i =
        arCount db i + (if documentId = i then 1 else 0) := by
      intro i
      simp only [arCount, hAR]
      exact filter_append_row_length db.analysisResults documentId i out
    rw [harc documentId, h0, if_pos rfl]
  · have hDocs : (saveAnalysisResult db documentId out).2.documents =
        db.documents.map (fun d =>
          if d.id = documentId then { d with status := Status.completed } else d) := by
      simp only [saveAnalysisResult, hdoc]
    intro d hd hid
    rw [hDocs] at hd
    rcases List.mem_map.mp hd with ⟨d0, _, rfl⟩
    by_cases h : d0.id = documentId
    · simp [h]
    · simp only [if_neg h] at hid ⊢
      exact absurd hid h

/-- Witness for C1 (amended): saving the example analysis for document 0 of
`db0`. -/
theorem c1_witness :
    ∃ db', saveAnalysisResult db0 0 exOut = (Except.ok (), db') ∧
      completedInv db' ∧
      arCount db' 0 = 1 ∧
      ∀ d ∈ db'.documents, d.id = 0 → d.status = Status.completed :=
  c1_atomic_save db0 0 exOut ⟨0, "jan.pdf", 3, 7, Status.pending⟩ rfl (by decide) rfl

/-- C4 counterexample: `updateStatus` moves a completed document back to
pending — a transition the claimed order forbids — because the mutation
patches the requested status without consulting the current one. -/
theorem c4_counterexample :
    (∃ d ∈ dbCompleted.documents, d.status = Status.completed) ∧
    updateStatus dbCompleted 0 Status.pending = (Except.ok (), db0) ∧
    ¬ allowedStep Status.completed Status.pending := by
  exact ⟨⟨⟨0, "jan.pdf", 3, 7, Status.completed⟩, by decide, rfl⟩, rfl, by decide⟩

/-- C4 (amended): `updateStatus` performs no transition validation — for
any existing document it sets exactly the requested status, whatever the
current status is, leaving every other row and table unchanged; the
monotonic order is not enforced by any exposed operation. -/
theorem c4_updateStatus_unguarded (db : DB) (documentId : Nat) (s : Status) (doc : Doc)
    (hdoc : findDoc db documentId = some doc) :
    ∃ db', updateStatus db documentId s = (Except.ok (), db') ∧
      (∀ d ∈ db'.documents, d.id = documentId → d.status = s) ∧
      (∀ d ∈ db'.documents, d.id ≠ documentId → d ∈ db.documents) ∧
      db'.analysisResults = db.analysisResults ∧
      db'.executionErrors = db.executionErrors := by
  refine ⟨{ db with
      documents := db.documents.map fun d =>
        if d.id = documentId then { d with status := s } else d },
    ?_, ?_, ?_, rfl, rfl⟩
  · simp only [updateStatus]
    rw [hdoc]
  · intro d hd hid
    rcases List.mem_map.mp hd with ⟨d0, _, rfl⟩
    by_cases h : d0.id = documentId
    · simp [h]
    · simp only [if_neg h] at hid ⊢
      exact absurd hid h
  · intro d hd hid
    rcases List.mem_map.mp hd with ⟨d0, hd0, rfl⟩
    by_cases h : d0.id = documentId
    · simp only [if_pos h] at hid
      exact absurd h (by simpa using hid)
    · simpa [if_neg h] using hd0

/-- Witness for C4 (amended): setting the completed document of
`dbCompleted` back to pending. -/
theorem c4_witness :
    ∃ db', updateStatus dbCompleted 0 Status.pending = (Except.ok (), db') ∧
      (∀ d ∈ db'.documents, d.id = 0 → d.status = Status.pending) ∧
      (∀ d ∈ db'.documents, d.id ≠ 0 → d ∈ dbCompleted.documents) ∧
      db'.analysisResults = dbCompleted.analysisResults ∧
      db'.executionErrors = dbCompleted.executionErrors :=
  c4_updateStatus_unguarded dbCompleted 0 Status.pending
    ⟨0, "jan.pdf", 3, 7, Status.completed⟩ rfl

/-- C5 counterexample: a document reaches `status = "failed"` (via
`updateStatus`) while its `executionErrors` table is empty, so
`failed ⇒ at least one ExecutionError` does not hold. -/
theorem c5_counterexample :
    updateStatus db0 0 Status.failed = (Except.ok (), dbFailed) ∧
    (∃ d ∈ dbFailed.documents, d.status = Status.failed) ∧
    dbFailed.executionErrors = [] ∧
    ¬ failedInv dbFailed := by
  exact ⟨rfl, ⟨⟨0, "jan.pdf", 3, 7, Status.failed⟩, by decide, rfl⟩, rfl, by decide⟩

theorem updateStatus_errors (db : DB) (documentId : Nat) (s : Status) :
    (updateStatus db documentId s).2.executionErrors = db.executionErrors := by
  rcases h : findDoc db documentId with _ | doc <;> simp [updateStatus, h]

theorem deleteDocument_errors (db : DB) (documentId userId : Nat) :
    (deleteDocument db documentId userId).2.executionErrors = db.executionErrors := by
  rcases h : findDoc db documentId with _ | doc
  · simp [deleteDocument, h]
  · by_cases ho : doc.ownerId ≠ userId <;> simp [deleteDocument, h, ho]

theorem saveAnalysisResult_errors (db : DB) (documentId : Nat) (out : AnalysisOut) :
    (saveAnalysisResult db documentId out).2.executionErrors = db.executionErrors := by
  rcases h : findDoc db documentId with _ | doc <;> simp [saveAnalysisResult, h]

theorem extractText_errors (pdfParse : List Nat → Option String) (db : DB)
    (storageId : Nat) :
    (extractText pdfParse db storageId).2.executionErrors = db.executionErrors := by
  rcases h : db.storage.find? (fun b => b.1 = storageId) with _ | blob
  · simp [extractText, h]
  · rcases hp : pdfParse blob.2 with _ | t <;> simp [extractText, h, hp]

theorem handleUpload_errors (db : DB) (title : String) (storageId userId : Nat)
    (extractOutcome : Except ExtractFault String)
    (analyzeOutcome : String → Except AnalyzeFault AnalysisOut) :
    (handleUpload db title storageId userId extractOutcome analyzeOutcome).1.executionErrors =
      db.executionErrors := by
  rcases extractOutcome with e | text
  · rfl
  · rcases hA : analyzeOutcome text with e | out <;> simp only [handleUpload, hA]
    · rfl
    · rcases hs : saveAnalysisResult (createDoc db title storageId userId).2
        (createDoc db title storageId userId).1 out with ⟨res, db2⟩
      have hpres := saveAnalysisResult_errors (createDoc db title storageId userId).2
        (createDoc db title storageId userId).1 out
      rw [hs] at hpres
      cases res <;> exact hpres.trans rfl

/-- C5 (amended): no operation of the repository or of the upload pipeline
ever writes an `executionErrors` row — the table is defined by the schema
but left untouched, including by `handleUpload`'s failure paths, so stage
failures record no ExecutionError. -/
theorem c5_no_error_rows (db : DB) :
    (∀ title storageId userId,
      (createDoc db title storageId userId).2.executionErrors = db.executionErrors) ∧
    (∀ documentId s,
      (updateStatus db documentId s).2.executionErrors = db.executionErrors) ∧
    (∀ documentId userId,
      (deleteDocument db documentId userId).2.executionErrors = db.executionErrors) ∧
    (∀ documentId out,
      (saveAnalysisResult db documentId out).2.executionErrors = db.executionErrors) ∧
    (∀ pdfParse storageId,
      (extractText pdfParse db storageId).2.executionErrors = db.executionErrors) ∧
    (∀ title storageId userId extractOutcome analyzeOutcome,
      (handleUpload db title storageId userId extractOutcome analyzeOutcome).1.executionErrors =
        db.executionErrors) := by
  exact ⟨fun _ _ _ => rfl,
    fun documentId s => updateStatus_errors db documentId s,
    fun documentId userId => deleteDocument_errors db documentId userId,
    fun documentId out => saveAnalysisResult_errors db documentId out,
    fun pdfParse storageId => extractText_errors pdfParse db storageId,
    fun title storageId userId eo ao => handleUpload_errors db title storageId userId eo ao⟩

/-- C6: a `deleteDocument` call whose caller is not the owner throws the
not-authorized error with the database unchanged (document row and blob
untouched); any call that changes the state had an owner-matched caller. -/
theorem c6_delete_authorization (db : DB) (documentId userId : Nat) :
    (∀ doc, findDoc db documentId = some doc → doc.ownerId ≠ userId →
      deleteDocument db documentId userId = (Except.error RepoError.notAuthorized, db)) ∧
    ((deleteDocument db documentId userId).2 ≠ db →
      ∃ doc, findDoc db documentId = some doc ∧ doc.ownerId = userId) := by
  constructor
  · intro doc hdoc hown
    simp only [deleteDocument, hdoc]
    rw [if_pos hown]
  · intro hne
    by_contra hno
    push_neg at hno
    apply hne
    rcases h : findDoc db documentId with _ | doc
    · simp [deleteDocument, h]
    · have hown : doc.ownerId ≠ userId := hno doc h
      simp [deleteDocument, h, hown]

/-- Witness for C6: user 8 attempts to delete document 0 of `db0`, which
user 7 owns. -/
theorem c6_witness :
    deleteDocument db0 0 8 = (Except.error RepoError.notAuthorized, db0) :=
  (c6_delete_authorization db0 0 8).1 ⟨0, "jan.pdf", 3, 7, Status.pending⟩ rfl (by decide)

/-- C8: `extractText` never mutates any entity (the database state passes
through unchanged), fails with the blob-not-found error when the storage
reference does not resolve, and fails with the extraction-failed error when
the binary cannot be parsed. -/
theorem c8_extract_pure (pdfParse : List Nat → Option String) (db : DB) (storageId : Nat) :
    (extractText pdfParse db storageId).2 = db ∧
    (db.storage.find? (fun b => b.1 = storageId) = none →
      (extractText pdfParse db storageId).1 = Except.error ExtractFault.blobNotFound) ∧
    (∀ blob, db.storage.find? (fun b => b.1 = storageId) = some blob →
      pdfParse blob.2 = none →
      (extractText pdfParse db storageId).1 = Except.error ExtractFault.extractionFailed) := by
  refine ⟨?_, ?_, ?_⟩
  · rcases h : db.storage.find? (fun b => b.1 = storageId) with _ | blob
    · simp [extractText, h]
    · rcases hp : pdfParse blob.2 with _ | t <;> simp [extractText, h, hp]
  · intro h
    simp [extractText, h]
  · intro blob h hp
    simp [extractText, h, hp]

/-- Witness for C8: an absent storage id (99) and a parse-rejected blob
(id 3) against `db0`. -/
theorem c8_witness :
    (extractText (fun _ => (none : Option String)) db0 99).2 = db0 ∧
    (extractText (fun _ => (none : Option String)) db0 99).1 =
      Except.error ExtractFault.blobNotFound ∧
    (extractText (fun _ => (none : Option String)) db0 3).1 =
      Except.error ExtractFault.extractionFailed :=
  ⟨(c8_extract_pure _ db0 99).1,
   (c8_extract_pure _ db0 99).2.1 rfl,
   (c8_extract_pure _ db0 3).2.2 (3, [37, 80]) rfl rfl⟩

end BudgetDiet
